import Mathlib

/-!
Verification of the guestbook comment worker (two variants).

Shallow embedding of the two request handlers:
- the ephemeral variant (src/cloudflare-worker.js): a module-level array
  `comments`, ids assigned from `Date.now()`, hard cap of 100 records;
- the persistent variant (src/unnamed/part_000): a D1/SQLite table
  `comments` with lazy schema initialization.

Times (both `Date.now()` and the `created_at` column) are modelled as
natural numbers counting milliseconds.  JSON parsing of request bodies is
modelled by `Option`: `none` stands for a body on which `request.json()`
throws.  A destructured JSON property that may be absent (JS `undefined`)
is an `Option` field.
-/

set_option linter.unusedVariables false

namespace Guestbook

/-- HTTP methods relevant to the routing chains of both workers. -/
inductive Method where
  | GET | POST | PUT | DELETE | OPTIONS
deriving DecidableEq, Repr

/-- Result of destructuring a parsed POST /api/comments body with
`const { email, comment, color = "black" } = data`:
a field is `none` when the property is absent (JS `undefined`). -/
structure PostBody where
  email : Option String
  comment : Option String
  color : Option String
deriving DecidableEq, Repr

/-- JavaScript `parseInt(s)` in base 10: skip leading whitespace, read an
optional sign and then the longest leading run of decimal digits; `none`
models the `NaN` result when no digits are found. -/
def parseIntJS (s : String) : Option Int :=
  let cs := s.data.dropWhile (fun c => c = ' ' ∨ c = '\t' ∨ c = '\n' ∨ c = '\r')
  let signRest : Int × List Char :=
    match cs with
    | '-' :: r => (-1, r)
    | '+' :: r => (1, r)
    | r => (1, r)
  let ds := signRest.2.takeWhile Char.isDigit
  if ds.isEmpty then none
  else some (signRest.1 *
    (ds.foldl (fun acc c => acc * 10 + (c.toNat - '0'.toNat)) 0 : Nat))

/-- JavaScript `x || d` applied to a `parseInt` result: both `NaN` (here
`none`) and `0` are falsy and select the default. -/
def jsOrInt (x : Option Int) (d : Int) : Int :=
  match x with
  | none => d
  | some n => if n = 0 then d else n

/-- JavaScript `s || d` on a nullable string: `null` and `""` are falsy. -/
def jsOrStr (x : Option String) (d : String) : String :=
  match x with
  | none => d
  | some s => if s = "" then d else s

/-! ### Ephemeral variant (src/cloudflare-worker.js) -/

/-- A record of the ephemeral variant.  The source stores
`timestamp: new Date().toISOString()`; here the same instant is kept as
milliseconds.  `email` and `comment` are the destructured body properties
and may be `undefined` (`none`). -/
structure MemComment where
  id : Nat
  email : Option String
  comment : Option String
  color : String
  timestamp : Nat
deriving DecidableEq, Repr

/-- A request to the ephemeral worker: method, URL path, the JSON-parsed
body (`none` when `request.json()` throws), and the value `Date.now()`
returns while this request is handled. -/
structure MemRequest where
  method : Method
  path : String
  body : Option PostBody
  now : Nat
deriving DecidableEq, Repr

/-- JSON response bodies produced by the ephemeral worker. -/
inductive MemRespBody where
  | empty
  | health (timestamp : Nat) (commentsCount : Nat)
  | commentList (cs : List MemComment)
  | postSuccess (id : Nat) (message : String)
  | errorMsg (msg : String)
deriving DecidableEq, Repr

/-- An HTTP response of the ephemeral worker (CORS headers, attached to
every response alike, are not modelled). -/
structure MemResponse where
  status : Nat
  body : MemRespBody
deriving DecidableEq, Repr

/-- The record the ephemeral POST handler builds from a parsed body:
`id: Date.now()`, the destructured `email`, `comment` and `color` (with its
default), and the creation instant. -/
def mkNewComment (data : PostBody) (now : Nat) : MemComment :=
  { id := now, email := data.email, comment := data.comment,
    color := data.color.getD "black", timestamp := now }

/-- The `fetch` handler of the ephemeral worker, transcribed from its
if-chain: OPTIONS preflight, then `/health` (any method), then
GET `/api/comments`, then POST `/api/comments` (insert at the front, then
truncate to 100 when the length exceeds 100), then the 404 fallthrough.
Returns the response together with the new value of the module-level
`comments` array. -/
def memFetch (req : MemRequest) (comments : List MemComment) :
    MemResponse × List MemComment :=
  if req.method = .OPTIONS then
    (⟨200, .empty⟩, comments)
  else if req.path = "/health" then
    (⟨200, .health req.now comments.length⟩, comments)
  else if req.path = "/api/comments" ∧ req.method = .GET then
    (⟨200, .commentList comments⟩, comments)
  else if req.path = "/api/comments" ∧ req.method = .POST then
    match req.body with
    | none => (⟨400, .errorMsg "请求格式错误"⟩, comments)
    | some data =>
      let newComment := mkNewComment data req.now
      let comments1 := newComment :: comments
      let comments2 :=
        if comments1.length > 100 then comments1.take 100 else comments1
      (⟨200, .postSuccess newComment.id "留言提交成功！"⟩, comments2)
  else
    (⟨404, .errorMsg "未找到 API 端点"⟩, comments)

/-- Run a sequence of requests through the ephemeral worker and return the
final state of the `comments` array. -/
def memRun (reqs : List MemRequest) (comments : List MemComment) :
    List MemComment :=
  reqs.foldl (fun s r => (memFetch r s).2) comments

/-- The request instants are strictly increasing along the list, and the
first one is at least `t`. -/
def timesStrictFrom (t : Nat) : List MemRequest → Bool
  | [] => true
  | r :: rest => decide (t ≤ r.now) && timesStrictFrom (r.now + 1) rest

/-- The request instants are non-decreasing along the list, and the first
one is at least `t` (the wall clock never runs backwards). -/
def timesMonoFrom (t : Nat) : List MemRequest → Bool
  | [] => true
  | r :: rest => decide (t ≤ r.now) && timesMonoFrom r.now rest

/-- Routing predicate of the ephemeral worker: the requests that reach one
of its handlers rather than the 404 fallthrough. -/
def memMatches (req : MemRequest) : Bool :=
  req.method = .OPTIONS || req.path = "/health" ||
    (req.path = "/api/comments" && (req.method = .GET || req.method = .POST))

/-! ### Persistent variant (src/unnamed/part_000) -/

/-- A row of the persistent `comments` table.  `email` and `comment` are
`TEXT NOT NULL`, so they are plain strings here; `created_at` is the
server-assigned creation instant in milliseconds. -/
structure Row where
  id : Nat
  email : String
  comment : String
  color : String
  created_at : Nat
  ip_hash : String
  user_agent : String
deriving DecidableEq, Repr

/-- The D1 database state: whether the `comments` table exists, its rows in
insertion order, and the next `AUTOINCREMENT` id. -/
structure DB where
  initialized : Bool
  rows : List Row
  nextId : Nat
deriving DecidableEq, Repr

/-- Rows in which `nextId` is a strict upper bound of every present id;
this holds of every table whose ids were assigned by `AUTOINCREMENT`. -/
def DB.idsBelowNext (db : DB) : Prop :=
  ∀ r ∈ db.rows, r.id < db.nextId

instance (db : DB) : Decidable db.idsBelowNext :=
  List.decidableBAll _ db.rows

/-- Comparison used by `ORDER BY created_at DESC`: `a` is at least as new
as `b`. -/
def newerEq (a b : Row) : Prop := b.created_at ≤ a.created_at

instance : DecidableRel newerEq := fun a b => Nat.decLe b.created_at a.created_at

instance : IsTotal Row newerEq := ⟨fun a b => Nat.le_total b.created_at a.created_at⟩

instance : IsTrans Row newerEq := ⟨fun _ _ _ h1 h2 => Nat.le_trans h2 h1⟩

/-- Modelled from the spec: the SQL engine behind `env.DB` is not part of
this repository.  `ORDER BY created_at DESC LIMIT ? OFFSET ?` with SQLite
semantics: a negative `OFFSET` behaves like 0, a negative `LIMIT` means no
limit; the bound `limit` and `offset` reach the engine unchanged. -/
def dbSelectRows (rows : List Row) (lim off : Int) : List Row :=
  let sorted := List.insertionSort newerEq rows
  let dropped := sorted.drop off.toNat
  if lim < 0 then dropped else dropped.take lim.toNat

/-- Modelled from the spec: a query against a database whose `comments`
table does not exist fails with the SQLite error. -/
def dbSelect (db : DB) (lim off : Int) : Except String (List Row) :=
  if db.initialized then .ok (dbSelectRows db.rows lim off)
  else .error "no such table: comments"

/-- Modelled from the spec: `SELECT COUNT(*) FROM comments`. -/
def dbCount (db : DB) : Except String Nat :=
  if db.initialized then .ok db.rows.length
  else .error "no such table: comments"

/-- Modelled from the spec: `INSERT INTO comments (email, comment, color,
ip_hash, user_agent) VALUES (?, ?, ?, ?, ?)`.  The statement fails when the
table does not exist, and also when `email` or `comment` is `undefined`
(D1 rejects binding `undefined`, and the columns are `NOT NULL`).  On
success it returns the new state and `meta.last_row_id`. -/
def dbInsert (db : DB) (email comment : Option String)
    (color iph ua : String) (now : Nat) : Except String (DB × Nat) :=
  if db.initialized = false then .error "no such table: comments"
  else
    match email, comment with
    | some e, some c =>
      let newRow : Row :=
        { id := db.nextId, email := e, comment := c, color := color,
          created_at := now, ip_hash := iph, user_agent := ua }
      .ok ({ db with rows := db.rows ++ [newRow], nextId := db.nextId + 1 },
        db.nextId)
    | _, _ => .error "D1_TYPE_ERROR: Type not supported for value binding"

/-- Modelled from the spec: `SELECT ... FROM comments WHERE id = ?` with
`.first()`, yielding the row or `null`. -/
def dbFindById (db : DB) (i : Nat) : Except String (Option Row) :=
  if db.initialized then .ok (db.rows.find? (fun r => r.id = i))
  else .error "no such table: comments"

/-- Modelled from the spec: `DELETE FROM comments WHERE id = ?`, reporting
`meta.rows_written`. -/
def dbDeleteById (db : DB) (i : Int) : Except String (DB × Nat) :=
  if db.initialized then
    let kept := db.rows.filter (fun r => ¬ ((r.id : Int) = i))
    .ok ({ db with rows := kept }, db.rows.length - kept.length)
  else .error "no such table: comments"

/-- Milliseconds per UTC day. -/
def msPerDay : Int := 86400000

/-- The ECMAScript Date range: a Date holds instants up to 8.64e15 ms away
from the epoch; `toISOString` on anything further throws a RangeError. -/
def maxDateMs : Int := 8640000000000000

/-- The first instant of calendar year 0000, in UTC milliseconds. -/
def year0Ms : Int := -62167219200000

/-- The first instant of calendar year 10000, in UTC milliseconds. -/
def year10000Ms : Int := 253402300800000

/-- Modelled from the spec: the comparison `created_at < ?` runs inside
the SQLite engine, which is not part of this repository, as TEXT between
the row value written by `CURRENT_TIMESTAMP` — always the plain
`YYYY-MM-DD HH:MM:SS` with a four-digit year, the only form
`CURRENT_TIMESTAMP` produces — and the bound `toISOString()` cutoff.  For
a cutoff inside years 0000-9999 the latter reads
`YYYY-MM-DDTHH:MM:SS.sssZ`: the ten-character date prefixes order exactly
like UTC day numbers, and on equal dates the eleventh characters decide,
space (0x20) being below `T` (0x54), so the row text is below the cutoff
text exactly when the UTC day of the row is at most the UTC day of the
cutoff, whatever the times of day on either side.  A cutoff outside years
0000-9999 is rendered in the expanded six-digit form with a leading sign,
and both signs precede every decimal digit, so such a cutoff text is
below every row text and no row is deleted. -/
def sqlDeletesRow (rowMs : Nat) (cutoffMs : Int) : Bool :=
  if year0Ms ≤ cutoffMs ∧ cutoffMs < year10000Ms then
    decide ((rowMs : Int).fdiv msPerDay ≤ cutoffMs.fdiv msPerDay)
  else
    false

/-- Modelled from the spec: `DELETE FROM comments WHERE created_at < ?`
with the `toISOString()` text of the cutoff instant bound as parameter,
reporting `meta.rows_written`; the TEXT comparison of the engine is
`sqlDeletesRow`. -/
def dbDeleteOlder (db : DB) (cutoffMs : Int) : Except String (DB × Nat) :=
  if db.initialized then
    let kept := db.rows.filter (fun r => !(sqlDeletesRow r.created_at cutoffMs))
    .ok ({ db with rows := kept }, db.rows.length - kept.length)
  else .error "no such table: comments"

/-- `ensureDatabaseInitialized`: issue the idempotent `CREATE TABLE IF NOT
EXISTS` / `CREATE INDEX IF NOT EXISTS` batch.  `initOk` models whether the
`exec` call succeeds this time; a failure is logged and swallowed, so the
state is simply left unchanged and the caller continues. -/
def ensureDatabaseInitialized (db : DB) (initOk : Bool) : DB :=
  if initOk then { db with initialized := true } else db

/-- A request to the persistent worker.  `postBody` is the JSON body of a
POST /api/comments (`none` when parsing throws); `deleteBody` is the JSON
body of a DELETE (`none` when parsing throws, the inner option is the `id`
property); `days`, `lim`, `off` are the raw query parameters as returned by
`url.searchParams.get` (`none` = absent, i.e. `null`); `ip` and `userAgent`
are the raw header values; `now` is the current instant; `initOk` says
whether a `CREATE TABLE` issued during this request would succeed. -/
structure PRequest where
  method : Method
  path : String
  postBody : Option PostBody
  deleteBody : Option (Option Int)
  days : Option String
  lim : Option String
  off : Option String
  ip : Option String
  userAgent : Option String
  now : Nat
  initOk : Bool
deriving DecidableEq, Repr

/-- JSON response bodies produced by the persistent worker. -/
inductive PRespBody where
  | empty
  | health (timestamp : Nat) (commentsCount : Nat) (storage : String)
  | healthFailure (msg : String)
  | commentList (rows : List Row)
  | listFailure (msg details : String)
  | postSuccess (id : Nat) (message : String) (comment : Row)
  | postFailure (msg details : String)
  | deleteResult (success : Bool) (deleted : Nat)
  | cleanupResult (deleted : Nat) (message : String)
  | dbInfo (tables : List String) (commentCount : Nat)
      (lastCommentTime : Option Nat)
  | dbInfoFailure (msg : String)
  | errorMsg (msg : String)
deriving DecidableEq, Repr

/-- An HTTP response of the persistent worker. -/
structure PResponse where
  status : Nat
  body : PRespBody
deriving DecidableEq, Repr

/-- Outcome of one request against the persistent worker: the response, the
new database state, and whether `ensureDatabaseInitialized` was invoked
while handling the request. -/
structure PResult where
  resp : PResponse
  db : DB
  initCalled : Bool
deriving DecidableEq, Repr

/-- Cutoff instant computed by the cleanup handler:
`Date.now() - maxAge * 24 * 60 * 60 * 1000` where
`maxAge = parseInt(days) || 30`.  The handler then renders this instant
with `toISOString()` — which throws a RangeError beyond `maxDateMs` — and
binds the resulting text into the DELETE statement. -/
def cleanupCutoff (req : PRequest) : Int :=
  (req.now : Int) - jsOrInt (req.days.bind parseIntJS) 30 * 86400000

/-- The `fetch` handler of the persistent worker, transcribed from its
if-chain: OPTIONS preflight; `/health` (any method); GET `/api/comments`
with `limit`/`offset` parsed by `parseInt(...) || default`; POST
`/api/comments` (hash of the caller address truncated to 16 hex characters,
user agent truncated to 255 characters, insert, re-read by
`meta.last_row_id`); DELETE `/api/comments` by body id; POST
`/api/comments/cleanup` by age; `/admin/db-info` (any method); 404
fallthrough.  Only the first three call `ensureDatabaseInitialized`.
`hash` abstracts the hex digest of SHA-256, which is external to the
repository. -/
def pFetch (hash : String → String) (req : PRequest) (db : DB) : PResult :=
  if req.method = .OPTIONS then
    ⟨⟨200, .empty⟩, db, false⟩
  else if req.path = "/health" then
    let db1 := ensureDatabaseInitialized db req.initOk
    match dbCount db1 with
    | .ok n => ⟨⟨200, .health req.now n "D1 Database"⟩, db1, true⟩
    | .error e => ⟨⟨500, .healthFailure e⟩, db1, true⟩
  else if req.path = "/api/comments" ∧ req.method = .GET then
    let db1 := ensureDatabaseInitialized db req.initOk
    let lim := jsOrInt (req.lim.bind parseIntJS) 100
    let off := jsOrInt (req.off.bind parseIntJS) 0
    match dbSelect db1 lim off with
    | .ok results => ⟨⟨200, .commentList results⟩, db1, true⟩
    | .error e => ⟨⟨500, .listFailure "获取留言失败" e⟩, db1, true⟩
  else if req.path = "/api/comments" ∧ req.method = .POST then
    let db1 := ensureDatabaseInitialized db req.initOk
    match req.postBody with
    | none =>
      ⟨⟨500, .postFailure "提交失败" "SyntaxError: invalid JSON"⟩, db1, true⟩
    | some data =>
      let ipHash := (hash (jsOrStr req.ip "unknown")).take 16
      let ua := (jsOrStr req.userAgent "unknown").take 255
      match dbInsert db1 data.email data.comment (data.color.getD "black")
          ipHash ua req.now with
      | .error e => ⟨⟨500, .postFailure "提交失败" e⟩, db1, true⟩
      | .ok (db2, lastId) =>
        match dbFindById db2 lastId with
        | .error e => ⟨⟨500, .postFailure "提交失败" e⟩, db2, true⟩
        | .ok none =>
          ⟨⟨500, .postFailure "提交失败"
              "TypeError: cannot read properties of null"⟩, db2, true⟩
        | .ok (some newComment) =>
          ⟨⟨200, .postSuccess newComment.id "留言提交成功！" newComment⟩,
            db2, true⟩
  else if req.path = "/api/comments" ∧ req.method = .DELETE then
    match req.deleteBody with
    | none => ⟨⟨500, .errorMsg "删除失败"⟩, db, false⟩
    | some idProp =>
      if idProp = none ∨ idProp = some 0 then
        ⟨⟨400, .errorMsg "需要留言ID"⟩, db, false⟩
      else
        match dbDeleteById db (idProp.getD 0) with
        | .error _ => ⟨⟨500, .errorMsg "删除失败"⟩, db, false⟩
        | .ok (db2, n) => ⟨⟨200, .deleteResult (decide (n > 0)) n⟩, db2, false⟩
  else if req.path = "/api/comments/cleanup" ∧ req.method = .POST then
    let maxAge := jsOrInt (req.days.bind parseIntJS) 30
    -- building the ISO text of the cutoff throws a RangeError when the
    -- instant lies outside the Date range; the catch block answers 500
    if cleanupCutoff req < -maxDateMs ∨ maxDateMs < cleanupCutoff req then
      ⟨⟨500, .errorMsg "清理失败"⟩, db, false⟩
    else
      match dbDeleteOlder db (cleanupCutoff req) with
      | .error _ => ⟨⟨500, .errorMsg "清理失败"⟩, db, false⟩
      | .ok (db2, n) =>
        ⟨⟨200, .cleanupResult n
            ("已清理" ++ toString n ++ "条" ++ toString maxAge ++ "天前的留言")⟩,
          db2, false⟩
  else if req.path = "/admin/db-info" then
    if db.initialized then
      ⟨⟨200, .dbInfo ["comments"] db.rows.length
          ((List.insertionSort newerEq db.rows).head?.map (·.created_at))⟩,
        db, false⟩
    else
      ⟨⟨500, .dbInfoFailure "no such table: comments"⟩, db, false⟩
  else
    ⟨⟨404, .errorMsg "未找到 API 端点"⟩, db, false⟩

/-- Which requests make the persistent worker call
`ensureDatabaseInitialized`: exactly `/health`, GET `/api/comments` and
POST `/api/comments` (the OPTIONS preflight returns first). -/
def callsInit (req : PRequest) : Bool :=
  !(req.method = .OPTIONS : Bool) &&
    (req.path = "/health" ||
      (req.path = "/api/comments" && (req.method = .GET || req.method = .POST)))

/-- Routing predicate of the persistent worker: the requests that reach one
of its handlers rather than the 404 fallthrough. -/
def pMatches (req : PRequest) : Bool :=
  req.method = .OPTIONS || req.path = "/health" ||
    (req.path = "/api/comments" &&
      (req.method = .GET || req.method = .POST || req.method = .DELETE)) ||
    (req.path = "/api/comments/cleanup" && req.method = .POST) ||
    req.path = "/admin/db-info"

/-! ### Concrete inputs used in witnesses and counterexamples -/

/-- A well-formed submission body. -/
def demoBody : PostBody := ⟨some "a@b.com", some "hi", some "red"⟩

/-- A valid POST to the ephemeral worker at instant `t`. -/
def demoPost (t : Nat) : MemRequest := ⟨.POST, "/api/comments", some demoBody, t⟩

/-- One hundred and one sequential valid POSTs at instants 1, 2, ..., 101. -/
def posts101 : List MemRequest := (List.range 101).map (fun k => demoPost (k + 1))

/-- Two valid POSTs arriving within the same millisecond. -/
def sameMsPosts : List MemRequest := [demoPost 5, demoPost 5]

/-- A submission body whose `email` property is absent. -/
def noEmailBody : PostBody := ⟨none, some "hi", none⟩

/-- A stand-in for the external SHA-256 hex digest. -/
def demoHash : String → String := fun _ => "0123456789abcdef0123456789abcdef"

/-- A fresh, still uninitialized database. -/
def emptyDb : DB := ⟨false, [], 1⟩

/-- An initialized database with no rows. -/
def initDb : DB := ⟨true, [], 1⟩

/-- A row created at instant 10^12 (so, newer than any 30-day cutoff taken
at the same instant). -/
def freshRow : Row := ⟨1, "a@b.com", "hi", "red", 1000000000000, "h", "u"⟩

/-- An initialized database holding exactly `freshRow`. -/
def freshDb : DB := ⟨true, [freshRow], 2⟩

/-- A cleanup request carrying the query parameter `days=0`, issued at the
creation instant of `freshRow`. -/
def cleanupReqDays0 : PRequest :=
  ⟨.POST, "/api/comments/cleanup", none, none, some "0", none, none, none,
    none, 1000000000000, true⟩

/-- A cleanup request with no `days` parameter, at the same instant. -/
def cleanupReqNoDays : PRequest :=
  ⟨.POST, "/api/comments/cleanup", none, none, none, none, none, none,
    none, 1000000000000, true⟩

/-- A cleanup request with a `days` value so large that the cutoff instant
leaves the Date range, at the same instant. -/
def cleanupReqBig : PRequest :=
  ⟨.POST, "/api/comments/cleanup", none, none, some "999999999", none, none,
    none, none, 1000000000000, true⟩

/-- A row created at 01:00 UTC of day 20000 (instant 1728003600000). -/
def sameDayRow : Row := ⟨1, "a@b.com", "hi", "red", 1728003600000, "h", "u"⟩

/-- An initialized database holding exactly `sameDayRow`. -/
def sameDayDb : DB := ⟨true, [sameDayRow], 2⟩

/-- A cleanup request with `days=1` issued at midnight of day 20001: its
cutoff instant is midnight of day 20000, one hour before `sameDayRow` was
created. -/
def cleanupReq1Day : PRequest :=
  ⟨.POST, "/api/comments/cleanup", none, none, some "1", none, none, none,
    none, 1728086400000, true⟩

/-- A GET /api/comments during which the initialization batch would fail. -/
def pGetNoInit : PRequest :=
  ⟨.GET, "/api/comments", none, none, none, none, none, none, none, 0, false⟩

/-- The row the persistent POST handler inserts for the submission
`{email: e, comment: c, color: col}`: the generated id, the server-assigned
creation instant, the truncated address digest and the truncated user
agent. -/
def insertedRow (hash : String → String) (req : PRequest) (db : DB)
    (e c col : String) : Row :=
  { id := db.nextId, email := e, comment := c, color := col,
    created_at := req.now,
    ip_hash := (hash (jsOrStr req.ip "unknown")).take 16,
    user_agent := (jsOrStr req.userAgent "unknown").take 255 }

/-- The database state after that insert: the new row appended, the
generated id consumed. -/
def dbAfterInsert (hash : String → String) (req : PRequest) (db : DB)
    (e c col : String) : DB :=
  { db with
    rows := db.rows ++ [insertedRow hash req db e c col],
    nextId := db.nextId + 1 }

/-- A well-formed DELETE request for id 5. -/
def demoDelete : PRequest :=
  ⟨.DELETE, "/api/comments", none, some (some 5), none, none, none, none,
    none, 0, true⟩

/-- A POST whose body is not valid JSON, to either worker. -/
def badJsonMemReq : MemRequest := ⟨.POST, "/api/comments", none, 3⟩

/-- A POST whose body is not valid JSON, persistent variant. -/
def badJsonPReq : PRequest :=
  ⟨.POST, "/api/comments", none, none, none, none, none, none, none, 3, true⟩

/-- A request matching no route of the ephemeral worker. -/
def noRouteMemReq : MemRequest := ⟨.GET, "/nope", none, 0⟩

/-- A request matching no route of the persistent worker. -/
def noRoutePReq : PRequest :=
  ⟨.GET, "/nope", none, none, none, none, none, none, none, 0, true⟩

/-- A GET /api/comments to the ephemeral worker at instant `t`. -/
def memGet (t : Nat) : MemRequest := ⟨.GET, "/api/comments", none, t⟩

/-- A GET /api/comments to the persistent worker with the given raw `limit`
and `offset` query parameters. -/
def pGet (l o : Option String) : PRequest :=
  ⟨.GET, "/api/comments", none, none, none, l, o, none, none, 0, true⟩

/-- A valid POST to the persistent worker at instant 9. -/
def demoPPost : PRequest :=
  ⟨.POST, "/api/comments", some demoBody, none, none, none, none,
    some "198.51.100.7", some "curl/8", 9, true⟩

/-- An ephemeral POST whose body lacks `email`, at instant 7. -/
def memPostNoEmail : MemRequest := ⟨.POST, "/api/comments", some noEmailBody, 7⟩

/-- A persistent POST whose body lacks `email`, at instant 7. -/
def pPostNoEmail : PRequest :=
  ⟨.POST, "/api/comments", some noEmailBody, none, none, none, none, none,
    none, 7, true⟩

/-! ### Helper lemmas: ephemeral variant -/

@[simp]
theorem mkNewComment_id (data : PostBody) (t : Nat) :
    (mkNewComment data t).id = t := rfl

@[simp]
theorem mkNewComment_timestamp (data : PostBody) (t : Nat) :
    (mkNewComment data t).timestamp = t := rfl

/-- Each request either leaves the ephemeral state unchanged or performs
the POST insertion followed by the conditional truncation. -/
theorem memFetch_state (req : MemRequest) (s : List MemComment) :
    (memFetch req s).2 = s ∨
      ∃ data, req.body = some data ∧
        (memFetch req s).2 =
          (if (mkNewComment data req.now :: s).length > 100 then
            (mkNewComment data req.now :: s).take 100
          else mkNewComment data req.now :: s) := by
  unfold memFetch
  split_ifs with h1 h2 h3 h4
  · exact .inl rfl
  · exact .inl rfl
  · exact .inl rfl
  · cases hb : req.body with
    | none => exact .inl rfl
    | some data => exact .inr ⟨data, rfl, rfl⟩
  · exact .inl rfl

/-- One step preserves the 100-record cap. -/
theorem memFetch_len_le (req : MemRequest) (s : List MemComment)
    (h : s.length ≤ 100) : ((memFetch req s).2).length ≤ 100 := by
  rcases memFetch_state req s with h2 | ⟨data, _, h2⟩ <;> rw [h2]
  · exact h
  · split_ifs with hl
    · simp [List.length_take]
    · simp only [List.length_cons, gt_iff_lt, not_lt] at hl ⊢
      exact hl

/-- Any run preserves the 100-record cap. -/
theorem memRun_len_le (reqs : List MemRequest) (s : List MemComment)
    (h : s.length ≤ 100) : (memRun reqs s).length ≤ 100 := by
  induction reqs generalizing s with
  | nil => exact h
  | cons r rest ih =>
    have hstep : memRun (r :: rest) s = memRun rest ((memFetch r s).2) := rfl
    rw [hstep]
    exact ih _ (memFetch_len_le r s h)

/-- One step at instant `req.now ≥ t` keeps all ids strictly below the
clock and keeps the id list strictly decreasing. -/
theorem memFetch_step_strict (req : MemRequest) (s : List MemComment)
    (t : Nat) (ht : t ≤ req.now) (hb : ∀ c ∈ s, c.id < t)
    (hs : (s.map (·.id)).Sorted (· > ·)) :
    (∀ c ∈ (memFetch req s).2, c.id < req.now + 1) ∧
      ((memFetch req s).2.map (·.id)).Sorted (· > ·) := by
  rcases memFetch_state req s with h2 | ⟨data, _, h2⟩ <;> rw [h2]
  · exact ⟨fun c hc => by have := hb c hc; omega, hs⟩
  · have hcons : ∀ c ∈ mkNewComment data req.now :: s, c.id < req.now + 1 := by
      intro c hc
      rcases List.mem_cons.mp hc with rfl | hc
      · simp
      · have := hb c hc; omega
    have hsort :
        ((mkNewComment data req.now :: s).map (·.id)).Sorted (· > ·) := by
      rw [List.map_cons]
      refine List.sorted_cons.mpr ⟨?_, hs⟩
      intro b hbmem
      rcases List.mem_map.mp hbmem with ⟨c, hc, rfl⟩
      have := hb c hc
      simp only [mkNewComment_id, gt_iff_lt]
      omega
    split_ifs with hl
    · refine ⟨fun c hc => hcons c (List.mem_of_mem_take hc), ?_⟩
      rw [List.map_take]
      exact List.Pairwise.sublist (List.take_sublist _ _) hsort
    · exact ⟨hcons, hsort⟩

/-- One step at instant `req.now ≥ t` keeps all creation times at most the
clock and keeps the timestamp list non-increasing. -/
theorem memFetch_step_mono (req : MemRequest) (s : List MemComment)
    (t : Nat) (ht : t ≤ req.now) (hb : ∀ c ∈ s, c.timestamp ≤ t)
    (hs : (s.map (·.timestamp)).Sorted (· ≥ ·)) :
    (∀ c ∈ (memFetch req s).2, c.timestamp ≤ req.now) ∧
      ((memFetch req s).2.map (·.timestamp)).Sorted (· ≥ ·) := by
  rcases memFetch_state req s with h2 | ⟨data, _, h2⟩ <;> rw [h2]
  · exact ⟨fun c hc => le_trans (hb c hc) ht, hs⟩
  · have hcons : ∀ c ∈ mkNewComment data req.now :: s,
        c.timestamp ≤ req.now := by
      intro c hc
      rcases List.mem_cons.mp hc with rfl | hc
      · simp
      · exact le_trans (hb c hc) ht
    have hsort :
        ((mkNewComment data req.now :: s).map (·.timestamp)).Sorted (· ≥ ·) := by
      rw [List.map_cons]
      refine List.sorted_cons.mpr ⟨?_, hs⟩
      intro b hbmem
      rcases List.mem_map.mp hbmem with ⟨c, hc, rfl⟩
      have := hb c hc
      simp only [mkNewComment_timestamp, ge_iff_le]
      omega
    split_ifs with hl
    · refine ⟨fun c hc => hcons c (List.mem_of_mem_take hc), ?_⟩
      rw [List.map_take]
      exact List.Pairwise.sublist (List.take_sublist _ _) hsort
    · exact ⟨hcons, hsort⟩

/-- Along strictly increasing request instants, the stored ids stay
strictly decreasing in list order. -/
theorem memRun_ids_sorted (reqs : List MemRequest) (t : Nat)
    (s : List MemComment) (hreqs : timesStrictFrom t reqs = true)
    (hb : ∀ c ∈ s, c.id < t) (hs : (s.map (·.id)).Sorted (· > ·)) :
    ((memRun reqs s).map (·.id)).Sorted (· > ·) := by
  induction reqs generalizing t s with
  | nil => exact hs
  | cons r rest ih =>
    have hstep : memRun (r :: rest) s = memRun rest ((memFetch r s).2) := rfl
    rw [hstep]
    simp only [timesStrictFrom, Bool.and_eq_true, decide_eq_true_eq] at hreqs
    obtain ⟨hb2, hs2⟩ := memFetch_step_strict r s t hreqs.1 hb hs
    exact ih (r.now + 1) _ hreqs.2 hb2 hs2

/-- Along non-decreasing request instants, the stored creation times stay
non-increasing in list order. -/
theorem memRun_timestamps_sorted (reqs : List MemRequest) (t : Nat)
    (s : List MemComment) (hreqs : timesMonoFrom t reqs = true)
    (hb : ∀ c ∈ s, c.timestamp ≤ t)
    (hs : (s.map (·.timestamp)).Sorted (· ≥ ·)) :
    ((memRun reqs s).map (·.timestamp)).Sorted (· ≥ ·) := by
  induction reqs generalizing t s with
  | nil => exact hs
  | cons r rest ih =>
    have hstep : memRun (r :: rest) s = memRun rest ((memFetch r s).2) := rfl
    rw [hstep]
    simp only [timesMonoFrom, Bool.and_eq_true, decide_eq_true_eq] at hreqs
    obtain ⟨hb2, hs2⟩ := memFetch_step_mono r s t hreqs.1 hb hs
    exact ih r.now _ hreqs.2 hb2 hs2

/-- The GET /api/comments branch of the ephemeral worker. -/
theorem memFetch_get (req : MemRequest) (s : List MemComment)
    (hm : req.method = .GET) (hp : req.path = "/api/comments") :
    memFetch req s = (⟨200, .commentList s⟩, s) := by
  unfold memFetch
  rw [if_neg (by simp [hm]), if_neg (by rw [hp]; decide), if_pos ⟨hp, hm⟩]

/-- The POST /api/comments branch of the ephemeral worker. -/
theorem memFetch_post (req : MemRequest) (s : List MemComment)
    (hm : req.method = .POST) (hp : req.path = "/api/comments") :
    memFetch req s =
      match req.body with
      | none => (⟨400, .errorMsg "请求格式错误"⟩, s)
      | some data =>
        (⟨200, .postSuccess (mkNewComment data req.now).id "留言提交成功！"⟩,
         if (mkNewComment data req.now :: s).length > 100 then
           (mkNewComment data req.now :: s).take 100
         else mkNewComment data req.now :: s) := by
  unfold memFetch
  rw [if_neg (by simp [hm]), if_neg (by rw [hp]; decide),
    if_neg (by simp [hm]), if_pos ⟨hp, hm⟩]

/-- The 404 fallthrough of the ephemeral worker. -/
theorem memFetch_noRoute (req : MemRequest) (s : List MemComment)
    (h : memMatches req = false) :
    memFetch req s = (⟨404, .errorMsg "未找到 API 端点"⟩, s) := by
  simp only [memMatches, Bool.or_eq_false_iff, Bool.and_eq_false_iff,
    decide_eq_false_iff_not] at h
  obtain ⟨⟨h1, h2⟩, h3⟩ := h
  unfold memFetch
  rw [if_neg h1, if_neg h2, if_neg ?_, if_neg ?_]
  · intro ⟨hp, hm⟩
    rcases h3 with h3 | ⟨hg, hq⟩
    · exact h3 hp
    · exact hq hm
  · intro ⟨hp, hm⟩
    rcases h3 with h3 | ⟨hg, hq⟩
    · exact h3 hp
    · exact hg hm

/-! ### Helper lemmas: persistent variant -/

@[simp]
theorem ensureDatabaseInitialized_rows (db : DB) (ok : Bool) :
    (ensureDatabaseInitialized db ok).rows = db.rows := by
  unfold ensureDatabaseInitialized
  split_ifs <;> rfl

@[simp]
theorem ensureDatabaseInitialized_nextId (db : DB) (ok : Bool) :
    (ensureDatabaseInitialized db ok).nextId = db.nextId := by
  unfold ensureDatabaseInitialized
  split_ifs <;> rfl

/-- Initialization is monotone: the table exists afterwards iff it already
existed or the batch succeeded. -/
theorem ensureDatabaseInitialized_initialized (db : DB) (ok : Bool) :
    (ensureDatabaseInitialized db ok).initialized = (db.initialized || ok) := by
  unfold ensureDatabaseInitialized
  cases ok <;> simp

/-- On an already-initialized database the batch is a no-op, whether or not
it succeeds: lazy initialization is idempotent. -/
theorem ensureDatabaseInitialized_of_init (db : DB) (ok : Bool)
    (h : db.initialized = true) : ensureDatabaseInitialized db ok = db := by
  unfold ensureDatabaseInitialized
  split_ifs with h2
  · cases db
    simp_all
  · rfl

/-- A failed initialization batch leaves the database untouched (the error
is only logged). -/
theorem ensureDatabaseInitialized_failure (db : DB) :
    ensureDatabaseInitialized db false = db := rfl

/-- The rows delivered by the paginated SELECT are ordered by creation time
descending. -/
theorem dbSelectRows_sorted (rows : List Row) (lim off : Int) :
    ((dbSelectRows rows lim off).map (·.created_at)).Sorted (· ≥ ·) := by
  have hsorted : (List.insertionSort newerEq rows).Sorted newerEq :=
    List.sorted_insertionSort newerEq rows
  have hsub : List.Sublist (dbSelectRows rows lim off)
      (List.insertionSort newerEq rows) := by
    unfold dbSelectRows
    split_ifs
    · exact List.drop_sublist _ _
    · exact (List.take_sublist _ _).trans (List.drop_sublist _ _)
  have hsorted2 : (dbSelectRows rows lim off).Sorted newerEq :=
    List.Pairwise.sublist hsub hsorted
  exact List.Pairwise.map _ (fun a b h => h) hsorted2

/-- Searching an appended list skips a prefix with no matches. -/
theorem find?_append_of_none {α : Type} (p : α → Bool) (l1 l2 : List α)
    (h : ∀ x ∈ l1, p x = false) :
    List.find? p (l1 ++ l2) = List.find? p l2 := by
  induction l1 with
  | nil => rfl
  | cons a l ih =>
    rw [List.cons_append, List.find?_cons_of_neg]
    · exact ih (fun x hx => h x (List.mem_cons_of_mem a hx))
    · simp [h a (List.mem_cons_self a l)]

/-- The GET /api/comments branch of the persistent worker. -/
theorem pFetch_get (hash : String → String) (req : PRequest) (db : DB)
    (hm : req.method = .GET) (hp : req.path = "/api/comments") :
    pFetch hash req db =
      match dbSelect (ensureDatabaseInitialized db req.initOk)
          (jsOrInt (req.lim.bind parseIntJS) 100)
          (jsOrInt (req.off.bind parseIntJS) 0) with
      | .ok results =>
        ⟨⟨200, .commentList results⟩,
          ensureDatabaseInitialized db req.initOk, true⟩
      | .error e =>
        ⟨⟨500, .listFailure "获取留言失败" e⟩,
          ensureDatabaseInitialized db req.initOk, true⟩ := by
  unfold pFetch
  rw [if_neg (by simp [hm]), if_neg (by rw [hp]; decide), if_pos ⟨hp, hm⟩]

/-- The POST /api/comments branch of the persistent worker. -/
theorem pFetch_post (hash : String → String) (req : PRequest) (db : DB)
    (hm : req.method = .POST) (hp : req.path = "/api/comments") :
    pFetch hash req db =
      (let db1 := ensureDatabaseInitialized db req.initOk
       match req.postBody with
       | none =>
         ⟨⟨500, .postFailure "提交失败" "SyntaxError: invalid JSON"⟩, db1, true⟩
       | some data =>
         match dbInsert db1 data.email data.comment (data.color.getD "black")
             ((hash (jsOrStr req.ip "unknown")).take 16)
             ((jsOrStr req.userAgent "unknown").take 255) req.now with
         | .error e => ⟨⟨500, .postFailure "提交失败" e⟩, db1, true⟩
         | .ok (db2, lastId) =>
           match dbFindById db2 lastId with
           | .error e => ⟨⟨500, .postFailure "提交失败" e⟩, db2, true⟩
           | .ok none =>
             ⟨⟨500, .postFailure "提交失败"
                 "TypeError: cannot read properties of null"⟩, db2, true⟩
           | .ok (some newComment) =>
             ⟨⟨200, .postSuccess newComment.id "留言提交成功！" newComment⟩,
               db2, true⟩) := by
  unfold pFetch
  rw [if_neg (by simp [hm]), if_neg (by rw [hp]; decide),
    if_neg (by simp [hm]), if_pos ⟨hp, hm⟩]

/-- The POST /api/comments/cleanup branch of the persistent worker. -/
theorem pFetch_cleanup (hash : String → String) (req : PRequest) (db : DB)
    (hm : req.method = .POST) (hp : req.path = "/api/comments/cleanup") :
    pFetch hash req db =
      (if cleanupCutoff req < -maxDateMs ∨ maxDateMs < cleanupCutoff req then
        ⟨⟨500, .errorMsg "清理失败"⟩, db, false⟩
      else
        match dbDeleteOlder db (cleanupCutoff req) with
        | .error _ => ⟨⟨500, .errorMsg "清理失败"⟩, db, false⟩
        | .ok (db2, n) =>
          ⟨⟨200, .cleanupResult n
              ("已清理" ++ toString n ++ "条" ++
                toString (jsOrInt (req.days.bind parseIntJS) 30) ++
                "天前的留言")⟩, db2, false⟩) := by
  unfold pFetch
  rw [if_neg (by simp [hm]), if_neg (by rw [hp]; decide),
    if_neg (by simp [hp]), if_neg (by simp [hp]), if_neg (by simp [hp]),
    if_pos ⟨hp, hm⟩]

/-- The 404 fallthrough of the persistent worker. -/
theorem pFetch_noRoute (hash : String → String) (req : PRequest) (db : DB)
    (h : pMatches req = false) :
    pFetch hash req db = ⟨⟨404, .errorMsg "未找到 API 端点"⟩, db, false⟩ := by
  simp only [pMatches, Bool.or_eq_false_iff, Bool.and_eq_false_iff,
    decide_eq_false_iff_not] at h
  obtain ⟨⟨⟨⟨h1, h2⟩, h3⟩, h4⟩, h5⟩ := h
  have hc3 : ¬(req.path = "/api/comments" ∧ req.method = .GET) := by
    intro hx
    rcases h3 with h3 | ⟨⟨hg, hpo⟩, hd⟩
    · exact h3 hx.1
    · exact hg hx.2
  have hc4 : ¬(req.path = "/api/comments" ∧ req.method = .POST) := by
    intro hx
    rcases h3 with h3 | ⟨⟨hg, hpo⟩, hd⟩
    · exact h3 hx.1
    · exact hpo hx.2
  have hc5 : ¬(req.path = "/api/comments" ∧ req.method = .DELETE) := by
    intro hx
    rcases h3 with h3 | ⟨⟨hg, hpo⟩, hd⟩
    · exact h3 hx.1
    · exact hd hx.2
  have hc6 : ¬(req.path = "/api/comments/cleanup" ∧ req.method = .POST) := by
    intro hx
    rcases h4 with h4 | h4
    · exact h4 hx.1
    · exact h4 hx.2
  unfold pFetch
  rw [if_neg h1, if_neg h2, if_neg hc3, if_neg hc4, if_neg hc5, if_neg hc6,
    if_neg h5]

/-- Exactly the `/health`, GET `/api/comments` and POST `/api/comments`
handlers invoke `ensureDatabaseInitialized`; the DELETE, cleanup and
db-info handlers (and the preflight and 404 paths) do not. -/
theorem pFetch_initCalled (hash : String → String) (req : PRequest)
    (db : DB) : (pFetch hash req db).initCalled = callsInit req := by
  unfold pFetch callsInit
  split_ifs with h1 h2 h3 h4 h5 h6 h7 <;> simp_all <;> (repeat' split) <;> rfl

/-- Inserting with a missing (undefined) email or comment always fails,
whatever the database state. -/
theorem dbInsert_missing (db : DB) (email comment : Option String)
    (color iph ua : String) (now : Nat)
    (h : email = none ∨ comment = none) :
    ∃ e, dbInsert db email comment color iph ua now = .error e := by
  unfold dbInsert
  split_ifs with h1
  · exact ⟨_, rfl⟩
  · rcases h with h | h <;> subst h
    · cases comment <;> exact ⟨_, rfl⟩
    · cases email <;> exact ⟨_, rfl⟩

/-! ### Claim theorems -/

set_option maxRecDepth 10000 in
/-- C4: in the ephemeral variant the comment list never exceeds 100
records, whatever sequence of requests is processed from the initial empty
state; after 101 sequential valid inserts (at instants 1..101) the list
holds exactly 100 records, the 100 most recently inserted ones (ids 101
down to 2, newest first), the oldest (id 1) having been evicted. -/
theorem C4_ephemeral_cap :
    (∀ reqs : List MemRequest, (memRun reqs []).length ≤ 100) ∧
      (memRun posts101 []).length = 100 ∧
      (memRun posts101 []).map (·.id) =
        (List.range 100).map (fun i => 101 - i) := by
  refine ⟨fun reqs => memRun_len_le reqs [] (by simp), ?_, ?_⟩ <;> decide

/-- C6 counterexample: two valid POSTs handled within the same millisecond
(instant 5) — a run whose wall clock is still non-decreasing — store two
records with the same id 5, so ids are neither unique nor strictly
increasing as the claim states. -/
theorem C6_counterexample :
    timesMonoFrom 0 sameMsPosts = true ∧
      (memRun sameMsPosts []).map (·.id) = [5, 5] ∧
      ¬ ((memRun sameMsPosts []).map (·.id)).Nodup := by
  refine ⟨?_, ?_, ?_⟩ <;> decide

/-- C6 amended: ephemeral ids are the `Date.now()` values at insertion, so
over any run whose request instants are strictly increasing (distinct
milliseconds) the stored ids are strictly decreasing in list order and
pairwise distinct; two inserts within one millisecond repeat the id. -/
theorem C6_ids_amended (reqs : List MemRequest)
    (h : timesStrictFrom 0 reqs = true) :
    ((memRun reqs []).map (·.id)).Sorted (· > ·) ∧
      ((memRun reqs []).map (·.id)).Nodup := by
  have hs := memRun_ids_sorted reqs 0 [] h (by simp) (by simp)
  exact ⟨hs, List.Pairwise.imp (fun h2 => ne_of_gt h2) hs⟩

/-- C6 amended, witnessed on two inserts at instants 1 and 2. -/
theorem C6_ids_amended_witness :
    ((memRun [demoPost 1, demoPost 2] []).map (·.id)).Sorted (· > ·) ∧
      ((memRun [demoPost 1, demoPost 2] []).map (·.id)).Nodup :=
  C6_ids_amended [demoPost 1, demoPost 2] (by decide)

/-- C9 counterexample: an unmatched request is answered 404 by both
variants, but the JSON error body carries the Chinese message
未找到 API 端点, not the literal text the claim states. -/
theorem C9_counterexample :
    (memFetch noRouteMemReq []).1 = ⟨404, .errorMsg "未找到 API 端点"⟩ ∧
      (pFetch demoHash noRoutePReq emptyDb).resp =
        ⟨404, .errorMsg "未找到 API 端点"⟩ ∧
      ("未找到 API 端点" : String) ≠ "endpoint not found" := by
  refine ⟨?_, ?_, ?_⟩ <;> decide

/-- C9 amended: every request matching no route is answered HTTP 404, in
both variants, with the JSON body whose error field is 未找到 API 端点
(Chinese for: endpoint not found), and the store is left untouched. -/
theorem C9_notFound_amended :
    (∀ (req : MemRequest) (s : List MemComment), memMatches req = false →
        memFetch req s = (⟨404, .errorMsg "未找到 API 端点"⟩, s)) ∧
      (∀ (hash : String → String) (req : PRequest) (db : DB),
        pMatches req = false →
        pFetch hash req db = ⟨⟨404, .errorMsg "未找到 API 端点"⟩, db, false⟩) :=
  ⟨memFetch_noRoute, pFetch_noRoute⟩

/-- C9 amended, witnessed on a PUT /api/comments request. -/
theorem C9_notFound_amended_witness :
    memFetch ⟨.PUT, "/api/comments", none, 0⟩ [] =
        (⟨404, .errorMsg "未找到 API 端点"⟩, []) ∧
      pFetch demoHash ⟨.PUT, "/api/comments", none, none, none, none, none,
          none, none, 0, true⟩ emptyDb =
        ⟨⟨404, .errorMsg "未找到 API 端点"⟩, emptyDb, false⟩ :=
  ⟨C9_notFound_amended.1 ⟨.PUT, "/api/comments", none, 0⟩ [] (by decide),
    C9_notFound_amended.2 demoHash _ emptyDb (by decide)⟩

/-- C3 counterexample: a POST /api/comments whose body is not valid JSON
is answered 400 by the ephemeral variant but 500 by the persistent one,
refuting the claim that both variants answer 400. -/
theorem C3_counterexample :
    (memFetch badJsonMemReq []).1.status = 400 ∧
      (pFetch demoHash badJsonPReq initDb).resp.status = 500 := by
  refine ⟨?_, ?_⟩ <;> decide

/-- C3 amended: on a POST /api/comments whose body is not valid JSON the
ephemeral variant answers 400 with a JSON error body, while the persistent
variant catch-all answers 500 with a JSON error body; neither variant
stores a record. -/
theorem C3_badJson_amended :
    (∀ (req : MemRequest) (s : List MemComment), req.method = .POST →
        req.path = "/api/comments" → req.body = none →
        memFetch req s = (⟨400, .errorMsg "请求格式错误"⟩, s)) ∧
      (∀ (hash : String → String) (req : PRequest) (db : DB),
        req.method = .POST → req.path = "/api/comments" →
        req.postBody = none →
        (pFetch hash req db).resp =
            ⟨500, .postFailure "提交失败" "SyntaxError: invalid JSON"⟩ ∧
          (pFetch hash req db).db.rows = db.rows) := by
  constructor
  · intro req s hm hp hb
    rw [memFetch_post req s hm hp, hb]
  · intro hash req db hm hp hb
    rw [pFetch_post hash req db hm hp, hb]
    exact ⟨rfl, by simp⟩

/-- C3 amended, witnessed on concrete malformed POSTs. -/
theorem C3_badJson_amended_witness :
    memFetch badJsonMemReq [] = (⟨400, .errorMsg "请求格式错误"⟩, []) ∧
      (pFetch demoHash badJsonPReq initDb).resp =
          ⟨500, .postFailure "提交失败" "SyntaxError: invalid JSON"⟩ ∧
        (pFetch demoHash badJsonPReq initDb).db.rows = initDb.rows :=
  ⟨C3_badJson_amended.1 badJsonMemReq [] rfl rfl rfl,
    C3_badJson_amended.2 demoHash badJsonPReq initDb rfl rfl rfl⟩

/-- C5 counterexample: the ephemeral variant accepts a POST whose body
lacks email: it stores the record (with the property undefined) and
answers success, refuting the claim that no record is created and no
success response is returned. -/
theorem C5_counterexample :
    (memFetch memPostNoEmail []).1 = ⟨200, .postSuccess 7 "留言提交成功！"⟩ ∧
      (memFetch memPostNoEmail []).2 = [⟨7, none, some "hi", "black", 7⟩] := by
  refine ⟨?_, ?_⟩ <;> decide

/-- C5 amended: requiredness of email and comment is enforced only by the
persistent variant, where the insert fails (undefined bind / NOT NULL), so
the request yields 500 and no new row; the ephemeral variant performs no
validation: it stores the record with the missing property undefined and
answers success. -/
theorem C5_required_amended :
    (∀ (hash : String → String) (req : PRequest) (db : DB) (data : PostBody),
        req.method = .POST → req.path = "/api/comments" →
        req.postBody = some data →
        (data.email = none ∨ data.comment = none) →
        (pFetch hash req db).resp.status = 500 ∧
          (pFetch hash req db).db.rows = db.rows) ∧
      (∀ (s : List MemComment) (data : PostBody) (t : Nat),
        (data.email = none ∨ data.comment = none) →
        (memFetch ⟨.POST, "/api/comments", some data, t⟩ s).1 =
            ⟨200, .postSuccess t "留言提交成功！"⟩ ∧
          mkNewComment data t ∈
            (memFetch ⟨.POST, "/api/comments", some data, t⟩ s).2) := by
  constructor
  · intro hash req db data hm hp hb hmiss
    rw [pFetch_post hash req db hm hp, hb]
    obtain ⟨e, he⟩ := dbInsert_missing (ensureDatabaseInitialized db req.initOk)
      data.email data.comment (data.color.getD "black")
      ((hash (jsOrStr req.ip "unknown")).take 16)
      ((jsOrStr req.userAgent "unknown").take 255) req.now hmiss
    refine ⟨?_, ?_⟩ <;> simp [he]
  · intro s data t hmiss
    refine ⟨rfl, ?_⟩
    show mkNewComment data t ∈
      (if (mkNewComment data t :: s).length > 100 then
        (mkNewComment data t :: s).take 100
      else mkNewComment data t :: s)
    split_ifs with hl
    · have htake : (mkNewComment data t :: s).take 100 =
          mkNewComment data t :: s.take 99 := rfl
      rw [htake]
      exact List.mem_cons_self _ _
    · exact List.mem_cons_self _ _

/-- C5 amended, witnessed on concrete bodies lacking email. -/
theorem C5_required_amended_witness :
    ((pFetch demoHash pPostNoEmail initDb).resp.status = 500 ∧
        (pFetch demoHash pPostNoEmail initDb).db.rows = initDb.rows) ∧
      ((memFetch ⟨.POST, "/api/comments", some noEmailBody, 7⟩ []).1 =
          ⟨200, .postSuccess 7 "留言提交成功！"⟩ ∧
        mkNewComment noEmailBody 7 ∈
          (memFetch ⟨.POST, "/api/comments", some noEmailBody, 7⟩ []).2) :=
  ⟨C5_required_amended.1 demoHash pPostNoEmail initDb noEmailBody rfl rfl rfl
      (Or.inl rfl),
    C5_required_amended.2 [] noEmailBody 7 (Or.inl rfl)⟩

/-- C1 counterexample, in two parts.  A cleanup with `days=0` issued at
the creation instant of the only stored row deletes nothing — `parseInt`
gives 0, which is falsy under `||`, so the default of 30 days applies —
while the claim predicts that all records are deleted.  And a cleanup
whose cutoff instant (midnight of day 20000) lies one hour before the
creation of the only stored row still deletes that row, because the TEXT
comparison resolves at calendar-day granularity — refuting the claim that
exactly the rows with creation time before the cutoff are deleted. -/
theorem C1_counterexample :
    ((pFetch demoHash cleanupReqDays0 freshDb).db.rows = [freshRow] ∧
      (pFetch demoHash cleanupReqDays0 freshDb).resp =
        ⟨200, .cleanupResult 0 "已清理0条30天前的留言"⟩) ∧
      (cleanupCutoff cleanupReq1Day < (sameDayRow.created_at : Int) ∧
        (pFetch demoHash cleanupReq1Day sameDayDb).db.rows = [] ∧
        (pFetch demoHash cleanupReq1Day sameDayDb).resp =
          ⟨200, .cleanupResult 1 "已清理1条1天前的留言"⟩) := by
  refine ⟨⟨?_, ?_⟩, ?_, ?_, ?_⟩ <;> decide

/-- C1 amended: the cutoff instant is now minus maxAge days where maxAge
is parseInt of the days parameter with fallback 30, so an absent days and
days=0 both use 30 (0 is falsy) and days=0 deletes only rows older than
the 30-day cutoff, not all rows.  A days value pushing the cutoff outside
the Date range makes the ISO rendering throw, and the handler answers 500
清理失败 deleting nothing.  For an in-range cutoff the handler answers 200
after deleting the rows below the cutoff text: with the cutoff inside
years 0000-9999 these are exactly the rows whose UTC day is at most the
UTC day of the cutoff — including rows of the same day newer than the
cutoff instant — and with a cutoff rendered before year 0000 none at
all. -/
theorem C1_cleanup_amended (hash : String → String) (req : PRequest)
    (db : DB) (hp : req.path = "/api/comments/cleanup")
    (hm : req.method = .POST) (hinit : db.initialized = true) :
    (req.days = none ∨ req.days = some "0" →
      cleanupCutoff req = (req.now : Int) - 30 * 86400000) ∧
      (cleanupCutoff req < -maxDateMs ∨ maxDateMs < cleanupCutoff req →
        (pFetch hash req db).resp = ⟨500, .errorMsg "清理失败"⟩ ∧
          (pFetch hash req db).db.rows = db.rows) ∧
      (-maxDateMs ≤ cleanupCutoff req → cleanupCutoff req ≤ maxDateMs →
        (pFetch hash req db).resp.status = 200 ∧
          (pFetch hash req db).db.rows = db.rows.filter
            (fun r => !(sqlDeletesRow r.created_at (cleanupCutoff req)))) ∧
      (∀ rowMs : Nat, year0Ms ≤ cleanupCutoff req →
        cleanupCutoff req < year10000Ms →
        (sqlDeletesRow rowMs (cleanupCutoff req) = true ↔
          (rowMs : Int).fdiv msPerDay ≤ (cleanupCutoff req).fdiv msPerDay)) ∧
      (cleanupCutoff req < year0Ms → -maxDateMs ≤ cleanupCutoff req →
        (pFetch hash req db).db.rows = db.rows) := by
  have hdel : dbDeleteOlder db (cleanupCutoff req) =
      .ok ({ db with rows :=
          db.rows.filter (fun r => !(sqlDeletesRow r.created_at (cleanupCutoff req))) },
        db.rows.length - (db.rows.filter
          (fun r => !(sqlDeletesRow r.created_at (cleanupCutoff req)))).length)
      := by
    simp [dbDeleteOlder, hinit]
  have hinrange : ∀ h1 : -maxDateMs ≤ cleanupCutoff req,
      ∀ h2 : cleanupCutoff req ≤ maxDateMs,
      (pFetch hash req db).resp.status = 200 ∧
        (pFetch hash req db).db.rows = db.rows.filter
          (fun r => !(sqlDeletesRow r.created_at (cleanupCutoff req))) := by
    intro h1 h2
    have hno : ¬ (cleanupCutoff req < -maxDateMs ∨
        maxDateMs < cleanupCutoff req) := by
      simp only [not_or, not_lt]
      exact ⟨h1, h2⟩
    rw [pFetch_cleanup hash req db hm hp, if_neg hno, hdel]
    exact ⟨rfl, rfl⟩
  refine ⟨?_, ?_, hinrange, ?_, ?_⟩
  · intro hdays
    unfold cleanupCutoff
    rcases hdays with hdays | hdays <;> rw [hdays]
    · rfl
    · have h0 : jsOrInt ((some "0").bind parseIntJS) 30 = 30 := by decide
      rw [h0]
  · intro hout
    rw [pFetch_cleanup hash req db hm hp, if_pos hout]
    exact ⟨rfl, rfl⟩
  · intro rowMs hy0 hy1
    unfold sqlDeletesRow
    rw [if_pos ⟨hy0, hy1⟩]
    simp
  · intro hlow h1
    have h2 : cleanupCutoff req ≤ maxDateMs := by
      have : year0Ms ≤ maxDateMs := by decide
      omega
    rw [(hinrange h1 h2).2]
    simp only [List.filter_eq_self]
    intro a ha
    have hfalse : sqlDeletesRow a.created_at (cleanupCutoff req) = false := by
      unfold sqlDeletesRow
      rw [if_neg]
      intro hx
      omega
    simp [hfalse]

/-- C1 amended, witnessed: with no days parameter the cutoff instant is 30
days back; days=999999999 leaves the Date range and yields 500 with
nothing deleted; days=0 yields 200 and deletes exactly the rows whose
text is below the 30-day cutoff text (none here). -/
theorem C1_cleanup_amended_witness :
    cleanupCutoff cleanupReqNoDays =
        ((1000000000000 : Nat) : Int) - 30 * 86400000 ∧
      ((pFetch demoHash cleanupReqBig freshDb).resp =
          ⟨500, .errorMsg "清理失败"⟩ ∧
        (pFetch demoHash cleanupReqBig freshDb).db.rows = freshDb.rows) ∧
      ((pFetch demoHash cleanupReqDays0 freshDb).resp.status = 200 ∧
        (pFetch demoHash cleanupReqDays0 freshDb).db.rows =
          freshDb.rows.filter (fun r =>
            !(sqlDeletesRow r.created_at (cleanupCutoff cleanupReqDays0)))) :=
  ⟨(C1_cleanup_amended demoHash cleanupReqNoDays freshDb rfl rfl rfl).1
      (Or.inl rfl),
    (C1_cleanup_amended demoHash cleanupReqBig freshDb rfl rfl rfl).2.1
      (by decide),
    (C1_cleanup_amended demoHash cleanupReqDays0 freshDb rfl rfl rfl).2.2.1
      (by decide) (by decide)⟩

/-- C2 counterexample: a DELETE /api/comments as the very first request,
on a database whose table does not yet exist, does not invoke the lazy
initialization (its handler has no such call); its own DELETE statement
then fails and the request is answered 500, refuting the claim that the
first request to any handler, including DELETE, triggers the
initialization. -/
theorem C2_counterexample :
    (pFetch demoHash demoDelete emptyDb).initCalled = false ∧
      (pFetch demoHash demoDelete emptyDb).db.initialized = false ∧
      (pFetch demoHash demoDelete emptyDb).resp.status = 500 := by
  refine ⟨?_, ?_, ?_⟩ <;> decide

/-- C2 amended: exactly the `/health`, GET `/api/comments` and POST
`/api/comments` handlers invoke the lazy idempotent initialization (the
DELETE, cleanup and db-info handlers never do); initialization only ever
sets the table-exists flag, a failed batch leaves the state untouched and
is merely logged, a batch on an initialized database is a no-op, and after
a failed batch the request still proceeds — its own query then fails with
a 500 if the table is missing. -/
theorem C2_lazyInit_amended :
    (∀ (hash : String → String) (req : PRequest) (db : DB),
        (pFetch hash req db).initCalled = callsInit req) ∧
      (∀ (db : DB) (ok : Bool),
        (ensureDatabaseInitialized db ok).initialized =
          (db.initialized || ok)) ∧
      (∀ db : DB, ensureDatabaseInitialized db false = db) ∧
      (∀ (db : DB) (ok : Bool), db.initialized = true →
        ensureDatabaseInitialized db ok = db) ∧
      (∀ (hash : String → String) (req : PRequest) (db : DB),
        req.path = "/api/comments" → req.method = .GET →
        db.initialized = false → req.initOk = false →
        (pFetch hash req db).resp =
          ⟨500, .listFailure "获取留言失败" "no such table: comments"⟩) := by
  refine ⟨pFetch_initCalled, ensureDatabaseInitialized_initialized,
    ensureDatabaseInitialized_failure, ensureDatabaseInitialized_of_init, ?_⟩
  intro hash req db hp hm hinit hok
  rw [pFetch_get hash req db hm hp, hok, ensureDatabaseInitialized_failure]
  have hsel : dbSelect db (jsOrInt (req.lim.bind parseIntJS) 100)
      (jsOrInt (req.off.bind parseIntJS) 0) =
      .error "no such table: comments" := by
    simp [dbSelect, hinit]
  rw [hsel]

/-- C2 amended, witnessed: a first GET calls the initialization; a failed
batch is a no-op; a GET whose batch fails still runs (and fails with 500)
on a missing table. -/
theorem C2_lazyInit_amended_witness :
    (pFetch demoHash (pGet none none) emptyDb).initCalled =
        callsInit (pGet none none) ∧
      ensureDatabaseInitialized initDb false = initDb ∧
      (pFetch demoHash pGetNoInit emptyDb).resp =
        ⟨500, .listFailure "获取留言失败" "no such table: comments"⟩ :=
  ⟨C2_lazyInit_amended.1 demoHash (pGet none none) emptyDb,
    C2_lazyInit_amended.2.2.2.1 initDb false rfl,
    C2_lazyInit_amended.2.2.2.2 demoHash pGetNoInit emptyDb rfl rfl rfl rfl⟩

/-- C7: every successful GET /api/comments response lists records ordered
by creation time descending — in the ephemeral variant for every state
reachable by a run with non-decreasing clock from the empty initial state,
and in the persistent variant for every database state whatsoever. -/
theorem C7_sorted :
    (∀ (reqs : List MemRequest) (g : MemRequest),
        timesMonoFrom 0 reqs = true → g.method = .GET →
        g.path = "/api/comments" →
        (memFetch g (memRun reqs [])).1 =
            ⟨200, .commentList (memRun reqs [])⟩ ∧
          ((memRun reqs []).map (·.timestamp)).Sorted (· ≥ ·)) ∧
      (∀ (hash : String → String) (req : PRequest) (db : DB)
          (rows : List Row),
        req.method = .GET → req.path = "/api/comments" →
        (pFetch hash req db).resp.body = .commentList rows →
        (rows.map (·.created_at)).Sorted (· ≥ ·)) := by
  constructor
  · intro reqs g hmono hm hp
    exact ⟨by rw [memFetch_get g _ hm hp],
      memRun_timestamps_sorted reqs 0 [] hmono (by simp) (by simp)⟩
  · intro hash req db rows hm hp hbody
    rw [pFetch_get hash req db hm hp] at hbody
    unfold dbSelect at hbody
    by_cases hinit : (ensureDatabaseInitialized db req.initOk).initialized = true
    · simp only [hinit, if_true] at hbody
      simp only [PRespBody.commentList.injEq] at hbody
      rw [← hbody]
      exact dbSelectRows_sorted _ _ _
    · rw [if_neg hinit] at hbody
      simp at hbody

/-- C7, witnessed on a two-insert run and on a one-row database. -/
theorem C7_sorted_witness :
    ((memFetch (memGet 3) (memRun [demoPost 1, demoPost 2] [])).1 =
        ⟨200, .commentList (memRun [demoPost 1, demoPost 2] [])⟩ ∧
      ((memRun [demoPost 1, demoPost 2] []).map (·.timestamp)).Sorted
        (· ≥ ·)) ∧
      ((dbSelectRows freshDb.rows 100 0).map (·.created_at)).Sorted (· ≥ ·) :=
  ⟨C7_sorted.1 [demoPost 1, demoPost 2] (memGet 3) (by decide) rfl rfl,
    C7_sorted.2 demoHash (pGet none none) freshDb
      (dbSelectRows freshDb.rows 100 0) rfl rfl (by decide)⟩

/-- Looking up the freshly inserted row by the generated id finds exactly
that row, because every pre-existing id is below `nextId`. -/
theorem find_insertedRow (hash : String → String) (req : PRequest) (db : DB)
    (e c col : String) (hids : db.idsBelowNext) :
    List.find? (fun r => r.id = db.nextId)
        (db.rows ++ [insertedRow hash req db e c col]) =
      some (insertedRow hash req db e c col) := by
  rw [find?_append_of_none]
  · simp [insertedRow]
  · intro x hx
    simpa using Nat.ne_of_lt (hids x hx)

/-- Re-reading the freshly inserted row through the model of the SQL
lookup yields exactly that row. -/
theorem dbFindById_afterInsert (hash : String → String) (req : PRequest)
    (db : DB) (e c col : String) (hids : db.idsBelowNext)
    (hinit : db.initialized = true) :
    dbFindById (dbAfterInsert hash req db e c col) db.nextId =
      .ok (some (insertedRow hash req db e c col)) := by
  simp only [dbFindById, dbAfterInsert, hinit, if_true]
  exact congrArg Except.ok (find_insertedRow hash req db e c col hids)

/-- The POST success path of the persistent worker: on an initialized
database with well-formed ids and a body carrying email, comment and
color, the handler inserts `insertedRow`, re-reads it by the generated id
and answers 200 with it. -/
theorem pFetch_post_ok (hash : String → String) (req : PRequest) (db : DB)
    (e c col : String) (hids : db.idsBelowNext) (hinit : db.initialized = true)
    (hm : req.method = .POST) (hp : req.path = "/api/comments")
    (hb : req.postBody = some ⟨some e, some c, some col⟩) :
    pFetch hash req db =
      ⟨⟨200, .postSuccess (insertedRow hash req db e c col).id "留言提交成功！"
          (insertedRow hash req db e c col)⟩,
        dbAfterInsert hash req db e c col, true⟩ := by
  have hdb1 := ensureDatabaseInitialized_of_init db req.initOk hinit
  rw [pFetch_post hash req db hm hp, hb, hdb1]
  have hins : dbInsert db (some e) (some c) col
      ((hash (jsOrStr req.ip "unknown")).take 16)
      ((jsOrStr req.userAgent "unknown").take 255) req.now =
      .ok (dbAfterInsert hash req db e c col, db.nextId) := by
    simp [dbInsert, hinit, insertedRow, dbAfterInsert]
  have hfind := dbFindById_afterInsert hash req db e c col hids hinit
  simp only [Option.getD_some, hins, hfind]

/-- C8: for every valid POST /api/comments body, the id in the success
response is the id of a record subsequently retrievable — in the
ephemeral variant the record heads the list returned by an immediate GET,
in the persistent variant it is retrievable by direct id lookup — and
that record carries the submitted email, comment and color. -/
theorem C8_post_get :
    (∀ (s : List MemComment) (t : Nat) (e c col : String),
        (memFetch ⟨.POST, "/api/comments",
            some ⟨some e, some c, some col⟩, t⟩ s).1 =
            ⟨200, .postSuccess t "留言提交成功！"⟩ ∧
          ((memFetch ⟨.POST, "/api/comments",
              some ⟨some e, some c, some col⟩, t⟩ s).2).head? =
            some ⟨t, some e, some c, col, t⟩ ∧
          (∀ g : MemRequest, g.method = .GET → g.path = "/api/comments" →
            (memFetch g ((memFetch ⟨.POST, "/api/comments",
                some ⟨some e, some c, some col⟩, t⟩ s).2)).1 =
              ⟨200, .commentList ((memFetch ⟨.POST, "/api/comments",
                some ⟨some e, some c, some col⟩, t⟩ s).2)⟩)) ∧
      (∀ (hash : String → String) (req : PRequest) (db : DB)
          (e c col : String),
        db.idsBelowNext → db.initialized = true → req.method = .POST →
        req.path = "/api/comments" →
        req.postBody = some ⟨some e, some c, some col⟩ →
        ∃ row : Row,
          (pFetch hash req db).resp =
              ⟨200, .postSuccess row.id "留言提交成功！" row⟩ ∧
            row.id = db.nextId ∧
            dbFindById (pFetch hash req db).db row.id = .ok (some row) ∧
            row.email = e ∧ row.comment = c ∧ row.color = col) := by
  constructor
  · intro s t e c col
    refine ⟨rfl, ?_, ?_⟩
    · show (if (mkNewComment ⟨some e, some c, some col⟩ t :: s).length > 100
          then (mkNewComment ⟨some e, some c, some col⟩ t :: s).take 100
          else mkNewComment ⟨some e, some c, some col⟩ t :: s).head? =
        some ⟨t, some e, some c, col, t⟩
      split_ifs with hl <;> rfl
    · intro g hgm hgp
      rw [memFetch_get g _ hgm hgp]
  · intro hash req db e c col hids hinit hm hp hb
    refine ⟨insertedRow hash req db e c col, ?_, rfl, ?_, rfl, rfl, rfl⟩
    · rw [pFetch_post_ok hash req db e c col hids hinit hm hp hb]
    · rw [pFetch_post_ok hash req db e c col hids hinit hm hp hb]
      exact dbFindById_afterInsert hash req db e c col hids hinit

/-- C8, witnessed on a concrete submission to each variant. -/
theorem C8_post_get_witness :
    ((memFetch ⟨.POST, "/api/comments",
        some ⟨some "a@b.com", some "hi", some "red"⟩, 7⟩ []).1 =
        ⟨200, .postSuccess 7 "留言提交成功！"⟩ ∧
      ((memFetch ⟨.POST, "/api/comments",
          some ⟨some "a@b.com", some "hi", some "red"⟩, 7⟩ []).2).head? =
        some ⟨7, some "a@b.com", some "hi", "red", 7⟩ ∧
      (∀ g : MemRequest, g.method = .GET → g.path = "/api/comments" →
        (memFetch g ((memFetch ⟨.POST, "/api/comments",
            some ⟨some "a@b.com", some "hi", some "red"⟩, 7⟩ []).2)).1 =
          ⟨200, .commentList ((memFetch ⟨.POST, "/api/comments",
            some ⟨some "a@b.com", some "hi", some "red"⟩, 7⟩ []).2)⟩)) ∧
      (∃ row : Row,
        (pFetch demoHash demoPPost initDb).resp =
            ⟨200, .postSuccess row.id "留言提交成功！" row⟩ ∧
          row.id = initDb.nextId ∧
          dbFindById (pFetch demoHash demoPPost initDb).db row.id =
            .ok (some row) ∧
          row.email = "a@b.com" ∧ row.comment = "hi" ∧ row.color = "red") :=
  ⟨C8_post_get.1 [] 7 "a@b.com" "hi" "red",
    C8_post_get.2 demoHash demoPPost initDb "a@b.com" "hi" "red"
      (by decide) rfl rfl rfl rfl⟩

/-- C10: in the persistent GET /api/comments, a limit of 0 or a
non-numeric limit behaves exactly like an absent one (default 100), a
non-numeric offset behaves like an absent one (default 0), and — with no
negative-value guard — numeric non-zero values, negative ones included,
are bound into the query as given. -/
theorem C10_limit_offset (hash : String → String) (req : PRequest) (db : DB)
    (hp : req.path = "/api/comments") (hm : req.method = .GET) :
    (pFetch hash { req with lim := some "0" } db =
        pFetch hash { req with lim := none } db) ∧
      (∀ s : String, parseIntJS s = none →
        pFetch hash { req with lim := some s } db =
          pFetch hash { req with lim := none } db) ∧
      (∀ s : String, parseIntJS s = none →
        pFetch hash { req with off := some s } db =
          pFetch hash { req with off := none } db) ∧
      (∀ (ls os : String) (n m : Int), parseIntJS ls = some n → n ≠ 0 →
        parseIntJS os = some m → m ≠ 0 → db.initialized = true →
        (pFetch hash { req with lim := some ls, off := some os } db).resp.body
          = .commentList (dbSelectRows db.rows n m)) := by
  refine ⟨?_, ?_, ?_, ?_⟩
  · rw [pFetch_get hash { req with lim := some "0" } db hm hp,
      pFetch_get hash { req with lim := none } db hm hp]
    rfl
  · intro s hs
    rw [pFetch_get hash { req with lim := some s } db hm hp,
      pFetch_get hash { req with lim := none } db hm hp]
    have hbind : (({ req with lim := some s } : PRequest).lim.bind parseIntJS)
        = none := by simp [hs]
    rw [hbind]
    rfl
  · intro s hs
    rw [pFetch_get hash { req with off := some s } db hm hp,
      pFetch_get hash { req with off := none } db hm hp]
    have hbind : (({ req with off := some s } : PRequest).off.bind parseIntJS)
        = none := by simp [hs]
    rw [hbind]
    rfl
  · intro ls os n m hls hn hos hm0 hinit
    rw [pFetch_get hash { req with lim := some ls, off := some os } db hm hp,
      ensureDatabaseInitialized_of_init db _ hinit]
    have hl : jsOrInt ((({ req with lim := some ls, off := some os } :
        PRequest).lim).bind parseIntJS) 100 = n := by
      simp [hls, jsOrInt, hn]
    have ho : jsOrInt ((({ req with lim := some ls, off := some os } :
        PRequest).off).bind parseIntJS) 0 = m := by
      simp [hos, jsOrInt, hm0]
    rw [hl, ho]
    have hsel : dbSelect db n m = .ok (dbSelectRows db.rows n m) := by
      simp [dbSelect, hinit]
    rw [hsel]

/-- C10, witnessed: limit 0 equals absent, and limit -5 with offset -2 is
bound as given. -/
theorem C10_limit_offset_witness :
    (pFetch demoHash { pGet none none with lim := some "0" } freshDb =
        pFetch demoHash { pGet none none with lim := none } freshDb) ∧
      (pFetch demoHash
          { pGet none none with lim := some "-5", off := some "-2" }
          freshDb).resp.body =
        .commentList (dbSelectRows freshDb.rows (-5) (-2)) :=
  ⟨(C10_limit_offset demoHash (pGet none none) freshDb rfl rfl).1,
    (C10_limit_offset demoHash (pGet none none) freshDb rfl rfl).2.2.2
      "-5" "-2" (-5) (-2) (by decide) (by decide) (by decide) (by decide) rfl⟩

end Guestbook
